import Mathlib

/-!
Verification of the IWIN per-site phenology / light-interception / yield
pipeline (`src/iwin/__init__.py`, class `Site`).

Numeric values are embedded as exact rationals (`ℚ`); numpy arrays become
`List ℚ`; Python `None` becomes `Option`; calendar dates become day numbers
(`ℤ`, the order agrees with the `YYYY-MM-DD` string order used by the code).
External library helpers (`np.argmin`, `np.cumsum`, Python `int`,
`"{:.2f}"` formatting) are modelled after their documented semantics.
-/

namespace Iwin

/-- Bridge between the executable `Rat.floor` and the `⌊⌋` notation. -/
theorem ratFloor_eq_floor (q : ℚ) : (Rat.floor q : ℤ) = ⌊q⌋ := by
  rw [Rat.floor_def', Rat.floor_def]

/-- Python `int()` applied to a rational: truncation toward zero. -/
def pythonInt (q : ℚ) : ℤ :=
  if 0 ≤ q then Rat.floor q else -(Rat.floor (-q))

/-- Value stored by `float("{:.2f}".format(x))`: `x` rounded to two decimal
digits (round to nearest; ties are immaterial for the inputs we evaluate). -/
def pyRound2 (q : ℚ) : ℚ :=
  ((Rat.floor (q * 100 + 1 / 2) : ℤ) : ℚ) / 100

/-- Value stored by `float("{:.3f}".format(x))`: `x` rounded to three decimal
digits. -/
def pyRound3 (q : ℚ) : ℚ :=
  ((Rat.floor (q * 1000 + 1 / 2) : ℤ) : ℚ) / 1000

/-- Elementwise running sum, as `np.cumsum`: `cumsum [a, b, c] = [a, a+b, a+b+c]`. -/
def cumsum (l : List ℚ) : List ℚ :=
  (l.scanl (· + ·) 0).tail

/-- Minimum of an array, as `np.nanmin` on NaN-free data (`0` on the empty list,
where numpy would raise). -/
def listMin : List ℚ → ℚ
  | [] => 0
  | x :: xs => xs.foldl min x

/-- Maximum of an array, as `np.nanmax` on NaN-free data. -/
def listMax : List ℚ → ℚ
  | [] => 0
  | x :: xs => xs.foldl max x

/-- Index of the first occurrence of the minimum, as `np.argmin`
(numpy documents that the first occurrence is returned on ties). -/
def npArgmin : List ℚ → ℕ
  | [] => 0
  | [_] => 0
  | x :: y :: ys =>
    if (y :: ys).getD (npArgmin (y :: ys)) 0 < x then npArgmin (y :: ys) + 1 else 0

theorem npArgmin_lt_length (l : List ℚ) (h : l ≠ []) : npArgmin l < l.length := by
  match l with
  | [x] => simp [npArgmin]
  | x :: y :: ys =>
    have ih := npArgmin_lt_length (y :: ys) (by simp)
    by_cases hc : (y :: ys).getD (npArgmin (y :: ys)) 0 < x
    · simp only [npArgmin]
      rw [if_pos hc]
      simpa using Nat.succ_lt_succ ih
    · simp only [npArgmin]
      rw [if_neg hc]
      simp

theorem npArgmin_is_min (l : List ℚ) (j : ℕ) (hj : j < l.length) :
    l.getD (npArgmin l) 0 ≤ l.getD j 0 := by
  match l with
  | [] => simp at hj
  | [x] =>
    match j with
    | 0 => simp [npArgmin]
    | j + 1 => simp at hj
  | x :: y :: ys =>
    have ih : ∀ i, i < (y :: ys).length →
        (y :: ys).getD (npArgmin (y :: ys)) 0 ≤ (y :: ys).getD i 0 := by
      intro i hi
      exact npArgmin_is_min (y :: ys) i hi
    by_cases hc : (y :: ys).getD (npArgmin (y :: ys)) 0 < x
    · simp only [npArgmin]
      rw [if_pos hc]
      match j with
      | 0 => exact le_of_lt (by simpa using hc)
      | j + 1 =>
        have hj' : j < (y :: ys).length := by simpa using hj
        simpa using ih j hj'
    · simp only [npArgmin]
      rw [if_neg hc]
      push_neg at hc
      match j with
      | 0 => simp
      | j + 1 =>
        have hj' : j < (y :: ys).length := by simpa using hj
        have := ih j hj'
        simpa using le_trans hc this

theorem npArgmin_first (l : List ℚ) (j : ℕ) (hj : j < npArgmin l) :
    l.getD (npArgmin l) 0 < l.getD j 0 := by
  match l with
  | [] => simp [npArgmin] at hj
  | [x] => simp [npArgmin] at hj
  | x :: y :: ys =>
    by_cases hc : (y :: ys).getD (npArgmin (y :: ys)) 0 < x
    · simp only [npArgmin] at hj ⊢
      rw [if_pos hc] at hj ⊢
      match j with
      | 0 => simpa using hc
      | j + 1 =>
        have hj' : j < npArgmin (y :: ys) := by omega
        simpa using npArgmin_first (y :: ys) j hj'
    · simp only [npArgmin] at hj
      rw [if_neg hc] at hj
      omega

/-- Modelled from the spec: `prft.calculatePRFT` lives in `iwin.iparyield.model`,
which is not under `src/`; the formula comes from spec section 4.4 and the
`Site.getPRFT` docstring: `PRFT = 1 - 0.0025 * (TDay - TOpt)^2`. -/
def calculatePRFT (tday topt : ℚ) : ℚ :=
  1 - 0.0025 * (tday - topt) ^ 2

/-- `Site.getPRFT`: applies `calculatePRFT` elementwise to the day-temperature
series (the `result = prft.calculatePRFT(TDay, TOpt)` call on a numpy array). -/
def getPRFT (tdays : List ℚ) (topt : ℚ) : List ℚ :=
  tdays.map (fun t => calculatePRFT t topt)

/-- `Site.getDaysToHeading`: piecewise daylength regression.  `nursery` is the
optional `Nursery` attribute, `c` the parameter `CONST_DAYHR_AS`, `dayHR` the
daylength; the code takes the `<` branch when `dayHR < c` and the `>=` branch
otherwise, then applies Python `int()`. -/
def getDaysToHeading (nursery : Option String) (c dayHR : ℚ) : ℤ :=
  if nursery = some "SAWYT" then
    if dayHR < c then pythonInt (617.68 - 51.406 * dayHR)
    else pythonInt (87.38 - 2.36 * dayHR)
  else
    if dayHR < c then pythonInt (491.27 - 38.62 * dayHR)
    else pythonInt (115.36 - 3.87 * dayHR)

/-- Regime boundary constant `CONST_DAYHR_AS`.  Modelled from the spec: the
parameter value (10.8 hours) is supplied by the configuration object, not by
`src/`; both the spec and the `getDaysToHeading` docstring state 10.8. -/
def CONST_DAYHR_AS : ℚ := 10.8

/-- Linear regression selected by the spec: the `>=` side is inclusive. -/
def headingRegression (nursery : Option String) (c dayHR : ℚ) : ℚ :=
  if nursery = some "SAWYT" then
    if dayHR < c then 617.68 - 51.406 * dayHR else 87.38 - 2.36 * dayHR
  else
    if dayHR < c then 491.27 - 38.62 * dayHR else 115.36 - 3.87 * dayHR

theorem pythonInt_eq_floor (q : ℚ) (h : 0 ≤ q) : pythonInt q = ⌊q⌋ := by
  simp [pythonInt, h, ratFloor_eq_floor]

theorem headingRegression_nonneg (nursery : Option String) (dayHR : ℚ)
    (h0 : 0 ≤ dayHR) (h24 : dayHR ≤ 24) :
    0 ≤ headingRegression nursery CONST_DAYHR_AS dayHR := by
  unfold headingRegression CONST_DAYHR_AS
  split
  · split
    · nlinarith
    · nlinarith
  · split
    · nlinarith
    · nlinarith

/-- C3: for every daylength `dayHR` (0 to 24 hours) and every nursery type,
`getDaysToHeading` returns the selected linear regression floored to an
integer day count, and at `dayHR` exactly equal to the regime boundary
`CONST_DAYHR_AS` the `>=` regression branch is the one selected, for both the
SAWYT and the non-SAWYT coefficient sets. -/
theorem getDaysToHeading_boundary_floor (nursery : Option String) (dayHR : ℚ)
    (h0 : 0 ≤ dayHR) (h24 : dayHR ≤ 24) :
    getDaysToHeading nursery CONST_DAYHR_AS dayHR
      = ⌊headingRegression nursery CONST_DAYHR_AS dayHR⌋
    ∧ headingRegression nursery CONST_DAYHR_AS CONST_DAYHR_AS
      = (if nursery = some "SAWYT" then 87.38 - 2.36 * CONST_DAYHR_AS
         else 115.36 - 3.87 * CONST_DAYHR_AS)
    ∧ getDaysToHeading nursery CONST_DAYHR_AS CONST_DAYHR_AS
      = ⌊(if nursery = some "SAWYT" then 87.38 - 2.36 * CONST_DAYHR_AS
          else 115.36 - 3.87 * CONST_DAYHR_AS : ℚ)⌋ := by
  refine ⟨?_, ?_, ?_⟩
  · have hnn := headingRegression_nonneg nursery dayHR h0 h24
    by_cases hs : nursery = some "SAWYT" <;>
      by_cases hlt : dayHR < CONST_DAYHR_AS <;>
        simp only [getDaysToHeading, headingRegression, hs, hlt, if_pos, if_neg,
          if_true, if_false, reduceIte] at hnn ⊢ <;>
        exact pythonInt_eq_floor _ hnn
  · simp [headingRegression, lt_irrefl]
  · by_cases hs : nursery = some "SAWYT" <;>
      simp only [getDaysToHeading, hs, if_true, if_false, reduceIte] <;>
      rw [if_neg (lt_irrefl CONST_DAYHR_AS)] <;>
      exact pythonInt_eq_floor _ (by norm_num [CONST_DAYHR_AS])

theorem getDaysToHeading_boundary_floor_witness :
    getDaysToHeading none CONST_DAYHR_AS CONST_DAYHR_AS
      = ⌊headingRegression none CONST_DAYHR_AS CONST_DAYHR_AS⌋ :=
  (getDaysToHeading_boundary_floor none CONST_DAYHR_AS
    (by norm_num [CONST_DAYHR_AS]) (by norm_num [CONST_DAYHR_AS])).1

/-- C9: the photosynthesis reduction factor is the literal elementwise formula
`1 - 0.0025 * (TDay - TOpt)^2`; it is exactly `1` at `TOpt`, symmetric about
`TOpt`, and unclamped (e.g. negative at `TOpt + 21`). -/
theorem getPRFT_parabola (topt d : ℚ) (tdays : List ℚ) :
    getPRFT tdays topt = tdays.map (fun t => 1 - 0.0025 * (t - topt) ^ 2)
    ∧ calculatePRFT topt topt = 1
    ∧ calculatePRFT (topt + d) topt = calculatePRFT (topt - d) topt
    ∧ calculatePRFT (topt + 21) topt < 0 := by
  refine ⟨rfl, by simp [calculatePRFT], ?_, ?_⟩
  · unfold calculatePRFT
    ring_nf
  · unfold calculatePRFT
    norm_num

/-- `Site.getEmergenceDate` index selection:
`idx = np.argmin(np.abs(cGDD - GDDreq))` (line 630); the returned emergence
date is `pheno_dates[idx]`. -/
def getEmergenceIdx (cGDD : List ℚ) (req : ℚ) : ℕ :=
  npArgmin (cGDD.map (fun x => |x - req|))

theorem getD_map (l : List ℚ) (f : ℚ → ℚ) (j : ℕ) (hj : j < l.length) :
    (l.map f).getD j 0 = f (l.getD j 0) := by
  rw [List.getD_eq_getElem?_getD, List.getD_eq_getElem?_getD,
    List.getElem?_map, List.getElem?_eq_getElem hj]
  simp

/-- C4: the emergence index is an argmin of `|cGDD[i] - GDDreq|`, and every
strictly earlier index is strictly farther from the requirement, so on exact
ties the lower (first-occurring) index is chosen, deterministically. -/
theorem getEmergenceIdx_argmin (cGDD : List ℚ) (req : ℚ) (h : cGDD ≠ []) :
    getEmergenceIdx cGDD req < cGDD.length
    ∧ (∀ j, j < cGDD.length →
        |cGDD.getD (getEmergenceIdx cGDD req) 0 - req| ≤ |cGDD.getD j 0 - req|)
    ∧ (∀ j, j < getEmergenceIdx cGDD req →
        |cGDD.getD (getEmergenceIdx cGDD req) 0 - req| < |cGDD.getD j 0 - req|) := by
  have hmapne : cGDD.map (fun x => |x - req|) ≠ [] := by
    simpa using h
  have hlen : (cGDD.map (fun x => |x - req|)).length = cGDD.length := by simp
  have hidx : getEmergenceIdx cGDD req < cGDD.length := by
    have := npArgmin_lt_length (cGDD.map (fun x => |x - req|)) hmapne
    rwa [hlen] at this
  refine ⟨hidx, ?_, ?_⟩
  · intro j hj
    have hmin := npArgmin_is_min (cGDD.map (fun x => |x - req|)) j (by rwa [hlen])
    rw [getD_map _ _ _ (by simpa [getEmergenceIdx] using hidx),
      getD_map _ _ _ hj] at hmin
    simpa [getEmergenceIdx] using hmin
  · intro j hj
    have hjlen : j < cGDD.length := lt_trans hj hidx
    have hfst := npArgmin_first (cGDD.map (fun x => |x - req|)) j
      (by simpa [getEmergenceIdx] using hj)
    rw [getD_map _ _ _ (by simpa [getEmergenceIdx] using hidx),
      getD_map _ _ _ hjlen] at hfst
    simpa [getEmergenceIdx] using hfst

theorem getEmergenceIdx_argmin_witness :
    getEmergenceIdx [(5 : ℚ), 3, 7, 3] 3 < 4
    ∧ (∀ j, j < ([(5 : ℚ), 3, 7, 3]).length →
        |([(5 : ℚ), 3, 7, 3]).getD (getEmergenceIdx [(5 : ℚ), 3, 7, 3] 3) 0 - 3|
          ≤ |([(5 : ℚ), 3, 7, 3]).getD j 0 - 3|) := by
  have h := getEmergenceIdx_argmin [(5 : ℚ), 3, 7, 3] 3 (by simp)
  exact ⟨h.1, h.2.1⟩

/-- `Site.getNormalizeThermalTime` on one cumulative-GDD series:
`(g - np.nanmin(g)) / (np.nanmax(g) - np.nanmin(g))` elementwise.  When
`max = min` every element equals the minimum, so each numpy entry is
`0/0 = NaN`, modelled here as `none`. -/
def getNormalizeTT (g : List ℚ) : List (Option ℚ) :=
  g.map (fun x =>
    if listMax g - listMin g = 0 then none
    else some ((x - listMin g) / (listMax g - listMin g)))

theorem foldl_min_of_le (x : ℚ) (xs : List ℚ) (h : ∀ y ∈ xs, x ≤ y) :
    xs.foldl min x = x := by
  induction xs with
  | nil => rfl
  | cons y ys ih =>
    have hxy : min x y = x := min_eq_left (h y (by simp))
    simp only [List.foldl_cons, hxy]
    exact ih (fun z hz => h z (by simp [hz]))

theorem listMin_of_sorted (x : ℚ) (xs : List ℚ) (h : (x :: xs).Sorted (· < ·)) :
    listMin (x :: xs) = x := by
  have hall : ∀ y ∈ xs, x ≤ y := by
    intro y hy
    exact le_of_lt ((List.pairwise_cons.mp h).1 y hy)
  simpa [listMin] using foldl_min_of_le x xs hall

theorem foldl_max_of_sorted (x : ℚ) (xs : List ℚ) (h : (x :: xs).Sorted (· < ·)) :
    xs.foldl max x = (x :: xs).getLast (List.cons_ne_nil x xs) := by
  induction xs generalizing x with
  | nil => rfl
  | cons y ys ih =>
    have hxy : max x y = y :=
      max_eq_right (le_of_lt ((List.pairwise_cons.mp h).1 y (by simp)))
    have htail : (y :: ys).Sorted (· < ·) := (List.pairwise_cons.mp h).2
    calc (y :: ys).foldl max x
        = ys.foldl max y := by simp [List.foldl_cons, hxy]
      _ = (y :: ys).getLast (List.cons_ne_nil y ys) := ih y htail
      _ = (x :: y :: ys).getLast (List.cons_ne_nil x (y :: ys)) := by
          rw [List.getLast_cons (List.cons_ne_nil y ys)]

theorem listMax_of_sorted (x : ℚ) (xs : List ℚ) (h : (x :: xs).Sorted (· < ·)) :
    listMax (x :: xs) = (x :: xs).getLast (List.cons_ne_nil x xs) := by
  simpa [listMax] using foldl_max_of_sorted x xs h

/-- C5: the normalized thermal time is `(g - min g)/(max g - min g)`
elementwise; the degenerate case `max = min` gives NaN everywhere (never an
exception); and for a strictly increasing series of at least two points the
first value is `0` and the last is `1`. -/
theorem getNormalizeThermalTime_spec (g : List ℚ) :
    (listMax g - listMin g ≠ 0 →
      getNormalizeTT g
        = g.map (fun x => some ((x - listMin g) / (listMax g - listMin g))))
    ∧ (listMax g - listMin g = 0 → ∀ v ∈ getNormalizeTT g, v = none)
    ∧ (g.Sorted (· < ·) → 2 ≤ g.length →
        (getNormalizeTT g).head? = some (some 0)
        ∧ (getNormalizeTT g).getLast? = some (some 1)) := by
  refine ⟨?_, ?_, ?_⟩
  · intro hne
    simp [getNormalizeTT, hne]
  · intro heq v hv
    simp only [getNormalizeTT] at hv
    rcases List.mem_map.mp hv with ⟨z, _, hz⟩
    rw [← hz, if_pos heq]
  · intro hsort hlen
    match g with
    | x :: y :: xs =>
      have hne2 : (y :: xs) ≠ [] := List.cons_ne_nil y xs
      have hmin : listMin (x :: y :: xs) = x := listMin_of_sorted x (y :: xs) hsort
      have hmax : listMax (x :: y :: xs)
          = (x :: y :: xs).getLast (List.cons_ne_nil x (y :: xs)) :=
        listMax_of_sorted x (y :: xs) hsort
      have hlast_mem : (x :: y :: xs).getLast (List.cons_ne_nil x (y :: xs)) ∈ y :: xs := by
        rw [List.getLast_cons hne2]
        exact List.getLast_mem hne2
      have hlt : x < (x :: y :: xs).getLast (List.cons_ne_nil x (y :: xs)) :=
        (List.pairwise_cons.mp hsort).1 _ hlast_mem
      have hdne : listMax (x :: y :: xs) - listMin (x :: y :: xs) ≠ 0 := by
        rw [hmin, hmax]
        exact sub_ne_zero_of_ne (ne_of_gt hlt)
      constructor
      · have h0 : (getNormalizeTT (x :: y :: xs)).head?
            = some (if listMax (x :: y :: xs) - listMin (x :: y :: xs) = 0 then none
                else some ((x - listMin (x :: y :: xs))
                  / (listMax (x :: y :: xs) - listMin (x :: y :: xs)))) := rfl
        rw [h0, if_neg hdne, hmin]
        simp
      · have h1 : getNormalizeTT (x :: y :: xs)
            = (x :: y :: xs).map (fun z =>
                if listMax (x :: y :: xs) - listMin (x :: y :: xs) = 0 then none
                else some ((z - listMin (x :: y :: xs))
                  / (listMax (x :: y :: xs) - listMin (x :: y :: xs)))) := rfl
        rw [h1, List.getLast?_map,
          List.getLast?_eq_getLast _ (List.cons_ne_nil x (y :: xs))]
        have h2 : (x :: y :: xs).getLast (List.cons_ne_nil x (y :: xs))
            - listMin (x :: y :: xs)
            = listMax (x :: y :: xs) - listMin (x :: y :: xs) := by
          rw [hmax]
        simp only [Option.map_some', if_neg hdne, h2, div_self hdne]
    | [x] => simp at hlen
    | [] => simp at hlen

theorem getNormalizeThermalTime_spec_witness :
    (getNormalizeTT [(1 : ℚ), 3]).head? = some (some 0)
    ∧ (getNormalizeTT [(1 : ℚ), 3]).getLast? = some (some 1) :=
  (getNormalizeThermalTime_spec [(1 : ℚ), 3]).2.2 (by decide) (by decide)

/-- One entry of `Site.errors`: every append in the source has the shape
`{"uid": self.uid, "loc": self.loc, "error": msg}`, a record with exactly
these three keys. -/
structure ErrorEntry where
  uid : ℤ
  loc : ℤ
  error : String
deriving DecidableEq

/-- A value stored in the `Site.attributes` mapping. -/
inductive AttrVal where
  | str : String → AttrVal
  | num : ℚ → AttrVal
  | null : AttrVal
  | errs : List ErrorEntry → AttrVal
deriving DecidableEq

/-- The per-site mutable record: identifiers, the attribute mapping, the
error list and the cached weather slice (dates as day numbers). -/
structure SiteState where
  uid : ℤ
  loc : ℤ
  attributes : List (String × AttrVal)
  errors : List ErrorEntry
  weather : Option (List ℤ)
deriving DecidableEq

/-- `self.attributes[k] = v`: later bindings shadow earlier ones on lookup. -/
def setA (a : List (String × AttrVal)) (k : String) (v : AttrVal) :
    List (String × AttrVal) :=
  (k, v) :: a

/-- `self.errors.append({"uid": self.uid, "loc": self.loc, "error": msg})`. -/
def appendErr (s : SiteState) (msg : String) : SiteState :=
  { s with errors := s.errors ++ [⟨s.uid, s.loc, msg⟩] }

/-- A half-open period filter `(weather['Date'] > a) & (weather['Date'] <= b)`
as a boolean row mask. -/
def betweenMask (w : List ℤ) (a b : ℤ) : List Bool :=
  w.map (fun d => decide (a < d ∧ d ≤ b))

/-- `len(self.weather[_mask])`: number of selected rows. -/
def maskDays (m : List Bool) : ℕ :=
  m.count true

/-- One step of the day-count section of `Site.getFilters` (lines 1070-1122):
for a live mask, store `Days_<name>` and discard the mask when it selects no
rows. -/
def daysStep (st : SiteState) (name : String) (m : Option (List Bool)) :
    SiteState × Option (List Bool) :=
  match m with
  | none => (st, none)
  | some mk =>
    let st' := { st with attributes := setA st.attributes name (AttrVal.num (maskDays mk)) }
    if maskDays mk = 0 then (st', none) else (st', some mk)

/-- Result of the heading-to-maturity section of `Site.getFilters`: the
updated site state and the four period masks. -/
structure FiltersHM where
  st : SiteState
  maskHM : Option (List Bool)
  maskHpM : Option (List Bool)
  maskPHM : Option (List Bool)
  maskPHpM : Option (List Bool)
deriving DecidableEq

/-- Day-count section of `Site.getFilters` restricted to the four
heading-to-maturity masks, in source order `HM, HpM, pHM, pHpM`
(lines 1111-1122). -/
def daysSection (st : SiteState) (mHM mHpM mPHM mPHpM : Option (List Bool)) :
    FiltersHM :=
  let d1 := daysStep st "Days_HM" mHM
  let d2 := daysStep d1.1 "Days_HpM" mHpM
  let d3 := daysStep d2.1 "Days_pHM" mPHM
  let d4 := daysStep d3.1 "Days_pHpM" mPHpM
  ⟨d4.1, d1.2, d2.2, d3.2, d4.2⟩

/-- The heading-to-maturity part of `Site.getFilters` (lines 915-926,
978-989, 1013-1022, 1043-1052 and the day-count section).  Options stand for
missing or invalid dates; the embedding covers sites where `PredEmergence`
is set (as the `fit` pipeline ensures), so the only escaping exception is the
comparison of `PredMaturity_pH` against an absent `PredHeading` (line 1043),
which the enclosing `except` turns into a generic error while skipping the
day-count section.  Note the source records the ordering error for the
`pHM` pair without clearing `_mask_pHM` (lines 978-987), unlike the three
sibling branches. -/
def getFiltersHM (st : SiteState) (w : List ℤ)
    (heading maturity predHeading predMatH predMatpH : Option ℤ) : FiltersHM :=
  let p1 : SiteState × Option (List Bool) :=
    match heading, maturity with
    | some h, some mm =>
      if h ≥ mm then
        (appendErr st "Observed heading is equal or greater than maturity", none)
      else (st, some (betweenMask w h mm))
    | _, _ => (st, none)
  let p2 : SiteState × Option (List Bool) :=
    match predHeading, maturity with
    | some ph, some mm =>
      if ph ≥ mm then
        (appendErr p1.1 "Estimated heading is equal or greater than maturity",
          some (betweenMask w ph mm))
      else (p1.1, some (betweenMask w ph mm))
    | _, _ => (p1.1, none)
  let p3 : SiteState × Option (List Bool) :=
    match predMatH, heading with
    | some pm, some h =>
      if h ≥ pm then
        (appendErr p2.1 "Observed heading is equal or greater than estimated maturity",
          none)
      else (p2.1, some (betweenMask w h pm))
    | _, _ => (p2.1, none)
  match predMatpH, predHeading with
  | some pm, some ph =>
    let p4 : SiteState × Option (List Bool) :=
      if ph ≥ pm then
        (appendErr p3.1 "Estimated heading is equal or greater than estimated maturity",
          none)
      else (p3.1, some (betweenMask w ph pm))
    daysSection p4.1 p1.2 p3.2 p2.2 p4.2
  | some _, none =>
    ⟨appendErr p3.1 "Getting filters for weather. Error: unorderable types",
      p1.2, p3.2, p2.2, none⟩
  | none, _ => daysSection p3.1 p1.2 p3.2 p2.2 none

/-- C1 (failing input): with weather days `0..9`, heading `6`, maturity `3`,
predicted heading `5`, predicted maturities `2` and `4`, every period pair
violates the ordering.  The `HM`, `HpM` and `pHpM` pairs behave as the claim
says (error recorded, mask dropped, `Days_*` unset), but for the
`predicted-heading >= maturity` pair the source only records the error: the
mask survives to the day-count step, which sets `Days_pHM` to `0` before
discarding the mask as zero-row — so `Days_pHM` does not stay unset. -/
theorem getFiltersHM_pHM_divergence :
    (getFiltersHM ⟨1, 2, [], [], none⟩ [0, 1, 2, 3, 4, 5, 6, 7, 8, 9]
        (some 6) (some 3) (some 5) (some 2) (some 4)).st.attributes.lookup "Days_pHM"
      = some (AttrVal.num 0)
    ∧ (getFiltersHM ⟨1, 2, [], [], none⟩ [0, 1, 2, 3, 4, 5, 6, 7, 8, 9]
        (some 6) (some 3) (some 5) (some 2) (some 4)).st.attributes.lookup "Days_HM"
      = none
    ∧ (getFiltersHM ⟨1, 2, [], [], none⟩ [0, 1, 2, 3, 4, 5, 6, 7, 8, 9]
        (some 6) (some 3) (some 5) (some 2) (some 4)).st.attributes.lookup "Days_HpM"
      = none
    ∧ (getFiltersHM ⟨1, 2, [], [], none⟩ [0, 1, 2, 3, 4, 5, 6, 7, 8, 9]
        (some 6) (some 3) (some 5) (some 2) (some 4)).st.attributes.lookup "Days_pHpM"
      = none
    ∧ (getFiltersHM ⟨1, 2, [], [], none⟩ [0, 1, 2, 3, 4, 5, 6, 7, 8, 9]
        (some 6) (some 3) (some 5) (some 2) (some 4)).st.errors
      = [⟨1, 2, "Observed heading is equal or greater than maturity"⟩,
         ⟨1, 2, "Estimated heading is equal or greater than maturity"⟩,
         ⟨1, 2, "Observed heading is equal or greater than estimated maturity"⟩,
         ⟨1, 2, "Estimated heading is equal or greater than estimated maturity"⟩] := by
  decide

/-- One maturity variant inside `Site.getMaturityDate` (lines 786-806 for the
observed anchor, 808-827 for the predicted anchor): slice the weather at
`Date >= anchor`, accumulate the adjusted thermal days (`tadj`, the external
`tadjday.estimate_TAdjDay` applied rowwise to TAVG), pick the index nearest
to `daysGF`, and read off (maturity date, days-to-maturity, days
anchor-to-maturity).  On an empty slice `np.argmin` raises (`none`). -/
def maturityVariant (tadj : ℚ → ℚ) (daysGF : ℚ) (w : List (ℤ × ℚ))
    (sow anchor : ℤ) : Option (ℤ × ℤ × ℤ) :=
  let sl := w.filter (fun r => anchor ≤ r.1)
  if sl.isEmpty then none
  else
    let c := cumsum (sl.map (fun r => tadj r.2))
    let n := npArgmin (c.map (fun x => |x - daysGF|))
    let mat := (sl.getD n (0, 0)).1
    some (mat, mat - sow, mat - anchor)

/-- `Site.getMaturityDate`: both variant computations live in one `try`
block, so an exception raised while processing the observed-heading anchor
(empty slice) skips the predicted-heading variant; the `except` clause then
returns whatever was already assigned. -/
def getMaturityDate (tadj : ℚ → ℚ) (daysGF : ℚ) (w : List (ℤ × ℚ)) (sow : ℤ)
    (heading predHeading : Option ℤ) :
    Option (ℤ × ℤ × ℤ) × Option (ℤ × ℤ × ℤ) :=
  match heading with
  | some h =>
    match maturityVariant tadj daysGF w sow h with
    | none => (none, none)
    | some rH =>
      match predHeading with
      | some ph =>
        match maturityVariant tadj daysGF w sow ph with
        | none => (some rH, none)
        | some rPH => (some rH, some rPH)
      | none => (some rH, none)
  | none =>
    match predHeading with
    | some ph =>
      match maturityVariant tadj daysGF w sow ph with
      | none => (none, none)
      | some rPH => (none, some rPH)
    | none => (none, none)

/-- C8 (counterexample): observed heading day 10 lies beyond the weather
range `0..3`, so its slice is empty and the shared `try` aborts; the
predicted-heading variant (anchor day 1, computable on its own, witnessed by
the third conjunct) is skipped — contradicting "each variant is always
computed when its heading anchor is available". -/
theorem getMaturityDate_skip_counterexample :
    (getMaturityDate (fun _ => 1) 2 [(0, 10), (1, 10), (2, 10), (3, 10)] 0
        (some 10) (some 1)).2 = none
    ∧ (getMaturityDate (fun _ => 1) 2 [(0, 10), (1, 10), (2, 10), (3, 10)] 0
        (some 10) (some 1)).1 = none
    ∧ (maturityVariant (fun _ => 1) 2 [(0, 10), (1, 10), (2, 10), (3, 10)] 0 1).isSome
      = true := by
  decide

/-- C8 (amended): each maturity variant equals its own independent
computation — unaffected by the other anchor's presence — provided the
observed-heading variant does not raise (its weather slice is non-empty);
the predicted variant alone is also computed whenever observed heading is
absent. -/
theorem getMaturityDate_variants (tadj : ℚ → ℚ) (daysGF : ℚ)
    (w : List (ℤ × ℚ)) (sow h ph : ℤ)
    (hH : (w.filter (fun r => h ≤ r.1)).isEmpty = false) :
    (getMaturityDate tadj daysGF w sow (some h) (some ph)).1
      = maturityVariant tadj daysGF w sow h
    ∧ (getMaturityDate tadj daysGF w sow (some h) (some ph)).2
      = maturityVariant tadj daysGF w sow ph
    ∧ (getMaturityDate tadj daysGF w sow (some h) none).1
      = maturityVariant tadj daysGF w sow h
    ∧ (getMaturityDate tadj daysGF w sow none (some ph)).2
      = maturityVariant tadj daysGF w sow ph := by
  have hsome : (maturityVariant tadj daysGF w sow h).isSome = true := by
    unfold maturityVariant
    simp [hH]
  rcases Option.isSome_iff_exists.mp hsome with ⟨rH, hrH⟩
  refine ⟨?_, ?_, ?_, ?_⟩
  · cases hph : maturityVariant tadj daysGF w sow ph <;>
      simp [getMaturityDate, hrH, hph]
  · cases hph : maturityVariant tadj daysGF w sow ph <;>
      simp [getMaturityDate, hrH, hph]
  · simp [getMaturityDate, hrH]
  · cases hph : maturityVariant tadj daysGF w sow ph <;>
      simp [getMaturityDate, hph]

theorem getMaturityDate_variants_witness :
    (getMaturityDate (fun _ => 1) 2 [(0, 10), (1, 10), (2, 10), (3, 10)] 0
        (some 0) (some 1)).2
      = maturityVariant (fun _ => 1) 2 [(0, 10), (1, 10), (2, 10), (3, 10)] 0 1 :=
  (getMaturityDate_variants (fun _ => 1) 2 [(0, 10), (1, 10), (2, 10), (3, 10)]
    0 0 1 (by decide)).2.1

/-- One variant of the yield block of `Site.getIPAR` (lines 2780-2811):
reads `attributes[src]`; a missing key raises (`none`), value `None` stores
`None`, a number stores `float("{:.2f}".format(value * YIELD_FACTOR))`. -/
def yieldVariant (st : SiteState) (src dst : String) (yf : ℚ) :
    Option SiteState :=
  match st.attributes.lookup src with
  | none => none
  | some (AttrVal.num g) =>
    some { st with attributes := setA st.attributes dst (AttrVal.num (pyRound2 (g * yf))) }
  | some AttrVal.null =>
    some { st with attributes := setA st.attributes dst AttrVal.null }
  | some _ => none

/-- The yield block of `Site.getIPAR` (lines 2780-2816): the four variants in
source order, inside one `try` whose `except` appends a structured error. -/
def getYieldStage (yf : ℚ) (st : SiteState) : SiteState :=
  match yieldVariant st "sumGPP_HM" "SimYield" yf with
  | none => appendErr st "Estimating Yield. Error: exception"
  | some s1 =>
    match yieldVariant s1 "sumGPP_pHM" "SimYield_pH" yf with
    | none => appendErr s1 "Estimating Yield. Error: exception"
    | some s2 =>
      match yieldVariant s2 "sumGPP_HpM" "SimYield_pM" yf with
      | none => appendErr s2 "Estimating Yield. Error: exception"
      | some s3 =>
        match yieldVariant s3 "sumGPP_pHpM" "SimYield_pHpM" yf with
        | none => appendErr s3 "Estimating Yield. Error: exception"
        | some s4 => s4

/-- C6 (counterexample): with `sumGPP_HM = 0.111` and `YIELD_FACTOR = 0.1`
the stored `SimYield` is the two-decimal rounding `0.01`, which differs from
the claimed exact product `0.0111`. -/
theorem getYieldStage_rounding_counterexample :
    ((getYieldStage (1 / 10)
        ⟨1, 2, [("sumGPP_HM", AttrVal.num (111 / 1000)), ("sumGPP_pHM", AttrVal.null),
                ("sumGPP_HpM", AttrVal.null), ("sumGPP_pHpM", AttrVal.null)], [],
          none⟩).attributes.lookup "SimYield")
      = some (AttrVal.num (1 / 100))
    ∧ ((1 : ℚ) / 100) ≠ (111 / 1000) * (1 / 10) := by
  refine ⟨?_, by norm_num⟩
  simp only [getYieldStage, yieldVariant, setA, List.lookup]
  norm_num [pyRound2, Rat.floor_def']
  rfl

/-- Attribute value written for one yield variant: `None` propagates, a
number is multiplied by the yield factor and rounded to two decimals. -/
def yieldOut (g : Option ℚ) (yf : ℚ) : AttrVal :=
  match g with
  | some v => AttrVal.num (pyRound2 (v * yf))
  | none => AttrVal.null

/-- Packs an optional summed GPP the way the attribute map stores it. -/
def attrOfOpt (g : Option ℚ) : AttrVal :=
  match g with
  | some v => AttrVal.num v
  | none => AttrVal.null

/-- C6 (amended): for each of the four heading-to-maturity period variants,
when the summed GPP attribute holds a value `g` the stored yield attribute is
`g * YIELD_FACTOR` rounded to two decimals (the source formats with
`"{:.2f}"`), and when it holds `None` the yield attribute is `None`; the four
results go to the four distinct names `SimYield`, `SimYield_pH`,
`SimYield_pM`, `SimYield_pHpM`. -/
theorem getYieldStage_spec (uid loc : ℤ) (w : Option (List ℤ))
    (errs : List ErrorEntry) (a : List (String × AttrVal))
    (gHM gpHM gHpM gpHpM : Option ℚ) (yf : ℚ) :
    (getYieldStage yf
        ⟨uid, loc,
          ("sumGPP_HM", attrOfOpt gHM) :: ("sumGPP_pHM", attrOfOpt gpHM) ::
            ("sumGPP_HpM", attrOfOpt gHpM) :: ("sumGPP_pHpM", attrOfOpt gpHpM) :: a,
          errs, w⟩).attributes.lookup "SimYield" = some (yieldOut gHM yf)
    ∧ (getYieldStage yf
        ⟨uid, loc,
          ("sumGPP_HM", attrOfOpt gHM) :: ("sumGPP_pHM", attrOfOpt gpHM) ::
            ("sumGPP_HpM", attrOfOpt gHpM) :: ("sumGPP_pHpM", attrOfOpt gpHpM) :: a,
          errs, w⟩).attributes.lookup "SimYield_pH" = some (yieldOut gpHM yf)
    ∧ (getYieldStage yf
        ⟨uid, loc,
          ("sumGPP_HM", attrOfOpt gHM) :: ("sumGPP_pHM", attrOfOpt gpHM) ::
            ("sumGPP_HpM", attrOfOpt gHpM) :: ("sumGPP_pHpM", attrOfOpt gpHpM) :: a,
          errs, w⟩).attributes.lookup "SimYield_pM" = some (yieldOut gHpM yf)
    ∧ (getYieldStage yf
        ⟨uid, loc,
          ("sumGPP_HM", attrOfOpt gHM) :: ("sumGPP_pHM", attrOfOpt gpHM) ::
            ("sumGPP_HpM", attrOfOpt gHpM) :: ("sumGPP_pHpM", attrOfOpt gpHpM) :: a,
          errs, w⟩).attributes.lookup "SimYield_pHpM" = some (yieldOut gpHpM yf) := by
  cases gHM <;> cases gpHM <;> cases gHpM <;> cases gpHpM <;>
    simp [getYieldStage, yieldVariant, setA, attrOfOpt, yieldOut, List.lookup]

/-- Elementwise triple product as numpy broadcasting over equal-length
arrays. -/
def zipWith3 (f : ℚ → ℚ → ℚ → ℚ) : List ℚ → List ℚ → List ℚ → List ℚ
  | a :: as, b :: bs, c :: cs => f a b c :: zipWith3 f as bs cs
  | _, _, _ => []

/-- `GPP_EH = SolRad_EH * 0.5 * RUE * PRFT_EH * iPAR_EH` (line 2650). -/
def gppSeries (rue : ℚ) (sol prft ipar : List ℚ) : List ℚ :=
  zipWith3 (fun s p i => s * 0.5 * rue * p * i) sol prft ipar

/-- De-normalization of one simulated NDVI value into real NDVI units,
`(v*(max_val - min_val)) + min_val` with the literal bounds 0.16 and 0.94
(lines 2673-2678). -/
def ndviDenorm (v : ℚ) : ℚ :=
  v * (0.94 - 0.16) + 0.16

/-- Outputs of the emergence-to-heading GPP block of `Site.getIPAR`. -/
structure GppEHOut where
  cGPP : AttrVal
  sumGPP : AttrVal
  ndviAtHeading : Option ℚ
  ndvi : Option (List ℚ)

/-- The `cGPP_EH` block of `Site.getIPAR` (lines 2648-2683).  `ndviHM` stands
for `ndvi.calculateNDVI_HM` (repository code under `iwin.iparyield`, not in
`src/`, so it is kept parametric: the claim only constrains the anchor passed
to it and the de-normalization of its output).  When RUE and the three
emergence-to-heading series are available, the block stores the rounded
cumulative and summed GPP, recalibrates NDVI-at-heading as
`0.00024355578828840187 * np.nanmax(cGPP_EH) + 0.5755361655424565`, and — when
the heading-to-maturity normalized thermal time exists — recomputes the
heading-to-maturity NDVI curve with the corrected anchor and de-normalizes
it elementwise. -/
def gppEHBlock (ndviHM : List ℚ → ℚ → List ℚ) (rue : Option ℚ)
    (sol prft ipar : Option (List ℚ)) (normTTHM : Option (List ℚ)) : GppEHOut :=
  match rue, sol, prft, ipar with
  | some r, some s, some p, some i =>
    let gpp := gppSeries r s p i
    let cg := cumsum gpp
    let corrected := 0.00024355578828840187 * listMax cg + 0.5755361655424565
    let nd :=
      match normTTHM with
      | some tt => some ((ndviHM tt corrected).map ndviDenorm)
      | none => none
    ⟨AttrVal.num (pyRound3 (listMax cg)), AttrVal.num (pyRound3 gpp.sum),
      some (pyRound3 corrected), nd⟩
  | _, _, _, _ => ⟨AttrVal.null, AttrVal.null, none, none⟩

/-- C7: whenever the emergence-to-heading GPP series is available, the
corrected NDVI-at-heading equals the literal linear recalibration of the
maximum cumulative GPP, the heading-to-maturity NDVI curve is recomputed
from that corrected anchor, and each recomputed value `v` is de-normalized
as `v*(0.94-0.16)+0.16`; without the heading-to-maturity thermal time the
curve is not recomputed. -/
theorem gppEHBlock_ndvi_correction (ndviHM : List ℚ → ℚ → List ℚ)
    (r : ℚ) (s p i tt : List ℚ) :
    (gppEHBlock ndviHM (some r) (some s) (some p) (some i) (some tt)).ndvi
      = some ((ndviHM tt (0.00024355578828840187
            * listMax (cumsum (gppSeries r s p i)) + 0.5755361655424565)).map
          (fun v => v * (0.94 - 0.16) + 0.16))
    ∧ (gppEHBlock ndviHM (some r) (some s) (some p) (some i) (some tt)).ndviAtHeading
      = some (pyRound3 (0.00024355578828840187
          * listMax (cumsum (gppSeries r s p i)) + 0.5755361655424565))
    ∧ (gppEHBlock ndviHM (some r) (some s) (some p) (some i) none).ndvi = none
    ∧ (gppEHBlock ndviHM none (some s) (some p) (some i) (some tt)).ndvi = none := by
  refine ⟨rfl, rfl, rfl, rfl⟩

/-- Effect of a stage body (`some` = body ran through, `none` = the body's
code raised inside the stage's own `try`). -/
def stepOf (body : SiteState → Option SiteState) (msg : String)
    (s : SiteState) : SiteState :=
  match body s with
  | some s' => s'
  | none => appendErr s msg

/-- `Site.getRangeDates` (lines 145-189), dates as day numbers: valid start
and end produce the inclusive day range (`pd.date_range`); a missing date
raises, and the `except` clause appends the structured entry
(lines 185-187). -/
def getRangeDates (st : SiteState) (s e : Option ℤ) :
    SiteState × Option (List ℤ) :=
  match s, e with
  | some sd, some ed =>
    (st, some ((List.range (ed - sd + 1).toNat).map (fun i => sd + i)))
  | _, _ =>
    (appendErr st "Estimating range dates. Error: Sowing or Maturity date not valid",
      none)

/-- The site error-list discipline: the target state keeps the site's
identifiers, its error list extends the source's by appending only, and every
appended entry carries the site's own `uid` and `loc` (and, being an
`ErrorEntry`, exactly the keys `uid`, `loc`, `error`). -/
def ErrExtends (s t : SiteState) : Prop :=
  t.uid = s.uid ∧ t.loc = s.loc
  ∧ ∃ new, t.errors = s.errors ++ new ∧ ∀ e ∈ new, e.uid = s.uid ∧ e.loc = s.loc

theorem errExt_refl (s : SiteState) : ErrExtends s s :=
  ⟨rfl, rfl, [], by simp, by simp⟩

theorem errExt_trans {s t u : SiteState} (h1 : ErrExtends s t)
    (h2 : ErrExtends t u) : ErrExtends s u := by
  obtain ⟨hu1, hl1, n1, he1, hm1⟩ := h1
  obtain ⟨hu2, hl2, n2, he2, hm2⟩ := h2
  refine ⟨hu2.trans hu1, hl2.trans hl1, n1 ++ n2, ?_, ?_⟩
  · rw [he2, he1, List.append_assoc]
  · intro e he
    rcases List.mem_append.mp he with hmem | hmem
    · exact hm1 e hmem
    · have := hm2 e hmem
      rw [hu1, hl1] at this
      exact this

theorem errExt_appendErr (s : SiteState) (msg : String) :
    ErrExtends s (appendErr s msg) :=
  ⟨rfl, rfl, [⟨s.uid, s.loc, msg⟩], rfl, by simp⟩

theorem errExt_setAttrs (s : SiteState) (a : List (String × AttrVal)) :
    ErrExtends s { s with attributes := a } :=
  ⟨rfl, rfl, [], by simp, by simp⟩

theorem errExt_daysStep (st : SiteState) (n : String) (m : Option (List Bool)) :
    ErrExtends st (daysStep st n m).1 := by
  cases m with
  | none => exact errExt_refl st
  | some mk =>
    dsimp only [daysStep]
    split
    · exact errExt_setAttrs _ _
    · exact errExt_setAttrs _ _

theorem errExt_daysSection (st : SiteState)
    (a b c d : Option (List Bool)) :
    ErrExtends st (daysSection st a b c d).st := by
  dsimp only [daysSection]
  exact errExt_trans (errExt_trans (errExt_trans (errExt_daysStep _ _ _)
    (errExt_daysStep _ _ _)) (errExt_daysStep _ _ _)) (errExt_daysStep _ _ _)

theorem errExt_getFiltersHM (st : SiteState) (w : List ℤ)
    (h mm ph pmh pmph : Option ℤ) :
    ErrExtends st (getFiltersHM st w h mm ph pmh pmph).st := by
  rcases h with _ | hv <;> rcases mm with _ | mv <;> rcases ph with _ | pv <;>
    rcases pmh with _ | qv <;> rcases pmph with _ | rv <;>
    dsimp only [getFiltersHM] <;> (try split_ifs) <;> (try dsimp only) <;>
    first
      | (refine errExt_trans ?_ (errExt_daysSection _ _ _ _ _)
         repeat' refine errExt_trans ?_ (errExt_appendErr _ _)
         exact errExt_refl _)
      | (repeat' refine errExt_trans ?_ (errExt_appendErr _ _)
         exact errExt_refl _)

theorem errExt_yieldVariant (st : SiteState) (src dst : String) (yf : ℚ)
    (u : SiteState) (h : yieldVariant st src dst yf = some u) :
    ErrExtends st u := by
  unfold yieldVariant at h
  split at h
  · exact absurd h (by simp)
  · rw [Option.some_inj] at h
    rw [← h]
    exact errExt_setAttrs _ _
  · rw [Option.some_inj] at h
    rw [← h]
    exact errExt_setAttrs _ _
  · exact absurd h (by simp)

theorem errExt_getYieldStage (yf : ℚ) (st : SiteState) :
    ErrExtends st (getYieldStage yf st) := by
  unfold getYieldStage
  split
  · exact errExt_appendErr _ _
  · rename_i s1 h1
    have e1 := errExt_yieldVariant _ _ _ _ _ h1
    split
    · exact errExt_trans e1 (errExt_appendErr _ _)
    · rename_i s2 h2
      have e2 := errExt_yieldVariant _ _ _ _ _ h2
      split
      · exact errExt_trans e1 (errExt_trans e2 (errExt_appendErr _ _))
      · rename_i s3 h3
        have e3 := errExt_yieldVariant _ _ _ _ _ h3
        split
        · exact errExt_trans e1 (errExt_trans e2 (errExt_trans e3 (errExt_appendErr _ _)))
        · rename_i s4 h4
          exact errExt_trans e1 (errExt_trans e2 (errExt_trans e3
            (errExt_yieldVariant _ _ _ _ _ h4)))

/-- C10: the error-list invariant across the modelled `Site` operations:
each leaves `uid` and `loc` untouched, only appends to `errors` (never
removes or rewrites entries), and every appended entry is an `ErrorEntry` —
exactly the keys `uid`, `loc`, `error` — carrying the site's own
identifiers.  The last conjunct propagates the invariant through any
try-wrapped stage whose body respects it. -/
theorem site_errors_invariant :
    (∀ st msg, ErrExtends st (appendErr st msg))
    ∧ (∀ st s e, ErrExtends st (getRangeDates st s e).1)
    ∧ (∀ st w h mm ph pmh pmph, ErrExtends st (getFiltersHM st w h mm ph pmh pmph).st)
    ∧ (∀ yf st, ErrExtends st (getYieldStage yf st))
    ∧ (∀ b m t, (∀ u, b t = some u → ErrExtends t u) → ErrExtends t (stepOf b m t)) := by
  refine ⟨errExt_appendErr, ?_, errExt_getFiltersHM, errExt_getYieldStage, ?_⟩
  · intro st s e
    rcases s with _ | sv <;> rcases e with _ | ev
    · exact errExt_appendErr _ _
    · exact errExt_appendErr _ _
    · exact errExt_appendErr _ _
    · exact errExt_refl _
  · intro b m t hb
    unfold stepOf
    cases hbt : b t with
    | none => exact errExt_appendErr _ _
    | some u => exact hb u hbt

theorem site_errors_invariant_witness :
    ErrExtends ⟨1, 2, [], [], none⟩
      (stepOf (fun _ => none) "m" ⟨1, 2, [], [], none⟩) :=
  site_errors_invariant.2.2.2.2 (fun _ => none) "m" ⟨1, 2, [], [], none⟩
    (fun _ hu => by simp at hu)

end Iwin
